import Mathlib

/-!
Verification of the node-tcp repository (NetConn / CompressedSocket / NetService).

Shallow embedding conventions:
* A byte is a `Nat` (values produced by the model are `< 256`); a byte string
  is a `List Nat`.
* A JavaScript string is represented by its UTF-8 byte list; a nullable string
  is an `Option (List Nat)` (`none` = `null`).  JavaScript falsiness of a
  string (`!str`), which is true for both `null` and `""`, is the predicate
  `jsFalsy`.
* A float32 value is represented by its IEEE-754 bit pattern (a `Nat < 2^32`):
  `Buffer.writeFloatBE` emits the four bytes of the pattern big-endian and
  `Buffer.readFloatBE` reassembles them.
* `zlib.deflate`/`zlib.inflate` are abstract parameters; inflation may fail,
  so it returns `Except Nat (List Nat)` (the `Nat` is an opaque error code).
  The asynchronous zlib callbacks of the source are modelled as completing
  synchronously, in call order.
* Fallible operations return `Option`/`Except`-style results.
-/

set_option autoImplicit false
set_option maxRecDepth 4000

namespace NodeTcp

/-- Big-endian 4-byte encoding of a natural number, as `Buffer.writeUInt32BE`
writes it (the source only calls it with values `< 2^32`). -/
def u32be (n : Nat) : List Nat :=
  [n / 16777216 % 256, n / 65536 % 256, n / 256 % 256, n % 256]

/-- Big-endian 4-byte decode, as `Buffer.readUInt32BE` reads offsets 0..3. -/
def readU32BE (bs : List Nat) : Nat :=
  ((bs.getD 0 0 * 256 + bs.getD 1 0) * 256 + bs.getD 2 0) * 256 + bs.getD 3 0

/-- Big-endian 8-byte encoding of a natural number (`writeBigInt64BE`'s
byte image for the two's-complement representative). -/
def u64be (n : Nat) : List Nat :=
  [n / 72057594037927936 % 256, n / 281474976710656 % 256,
   n / 1099511627776 % 256, n / 4294967296 % 256,
   n / 16777216 % 256, n / 65536 % 256, n / 256 % 256, n % 256]

/-- Big-endian 8-byte decode (`Buffer.readBigInt64BE`'s unsigned accumulation). -/
def readU64BE (bs : List Nat) : Nat :=
  ((((((bs.getD 0 0 * 256 + bs.getD 1 0) * 256 + bs.getD 2 0) * 256 +
      bs.getD 3 0) * 256 + bs.getD 4 0) * 256 + bs.getD 5 0) * 256 +
      bs.getD 6 0) * 256 + bs.getD 7 0

/-- Big-endian 2-byte encoding, as `Buffer.writeInt16BE` writes a value in
`[0, 32767]` (the only range the source passes to it). -/
def u16be (n : Nat) : List Nat :=
  [n / 256 % 256, n % 256]

/-- Big-endian 2-byte decode (unsigned accumulation of `readInt16BE`). -/
def readU16BE (bs : List Nat) : Nat :=
  bs.getD 0 0 * 256 + bs.getD 1 0

/-- Two's-complement reinterpretation of an 8-bit unsigned value
(`Buffer.readInt8`). -/
def toInt8 (n : Nat) : Int :=
  if n < 128 then (n : Int) else (n : Int) - 256

/-- Two's-complement reinterpretation of a 16-bit unsigned value
(`Buffer.readInt16BE`). -/
def toInt16 (n : Nat) : Int :=
  if n < 32768 then (n : Int) else (n : Int) - 65536

/-- Two's-complement reinterpretation of a 32-bit unsigned value
(`Buffer.readInt32BE`). -/
def toInt32 (n : Nat) : Int :=
  if n < 2147483648 then (n : Int) else (n : Int) - 4294967296

/-- Two's-complement reinterpretation of a 64-bit unsigned value
(`Buffer.readBigInt64BE`). -/
def toInt64 (n : Nat) : Int :=
  if n < 9223372036854775808 then (n : Int) else (n : Int) - 18446744073709551616

theorem readU32BE_u32be (n : Nat) (h : n < 4294967296) : readU32BE (u32be n) = n := by
  simp only [readU32BE, u32be, List.getD_cons_zero, List.getD_cons_succ]
  omega

theorem readU16BE_u16be (n : Nat) (h : n < 65536) : readU16BE (u16be n) = n := by
  simp only [readU16BE, u16be, List.getD_cons_zero, List.getD_cons_succ]
  omega

theorem readU64BE_u64be (n : Nat) (h : n < 18446744073709551616) :
    readU64BE (u64be n) = n := by
  simp only [readU64BE, u64be, List.getD_cons_zero, List.getD_cons_succ]
  omega

theorem u32be_length (n : Nat) : (u32be n).length = 4 := rfl

theorem u16be_length (n : Nat) : (u16be n).length = 2 := rfl

theorem u64be_length (n : Nat) : (u64be n).length = 8 := rfl

/-- JavaScript falsiness of a nullable string (`!str` in `writeString` /
`writeStringOld`): true for `null` and for the empty string. -/
def jsFalsy : Option (List Nat) → Bool
  | none => true
  | some [] => true
  | some (_ :: _) => false

/-- Maximum byte length accepted by `writeString` (`unsignedIntMax` in
netConn.ts). -/
def unsignedIntMax : Nat := 4294967295

/-- Maximum byte length accepted by `writeStringOld` (`signedShortMax` in
netConn.ts). -/
def signedShortMax : Nat := 32767

namespace NetConn

/-- Outcome marker for a typed write helper: either every `writeBuffer`
sub-write was issued, or the helper threw (`String too long`,
the ProtocolLimitError of the spec) before issuing any. -/
inductive WriteOutcome
  | ok
  | limitError
  deriving DecidableEq, Repr

/-- Reading `n` bytes from the front of a byte string, as `readBuffer(n)`
delivers exactly `n` bytes once available (here: when the input has them). -/
def rd (n : Nat) (bs : List Nat) : Option (List Nat × List Nat) :=
  if n ≤ bs.length then some (bs.take n, bs.drop n) else none

/-- Model of `NetConn.readInt`: read 4 bytes, `readInt32BE`. -/
def readInt (bs : List Nat) : Option (Int × List Nat) :=
  (rd 4 bs).map fun p => (toInt32 (readU32BE p.1), p.2)

/-- Model of `NetConn.readByte`: read 1 byte, `readInt8`. -/
def readByte (bs : List Nat) : Option (Int × List Nat) :=
  (rd 1 bs).map fun p => (toInt8 (p.1.getD 0 0), p.2)

/-- Model of `NetConn.readBoolean`: `readByte`, then nonzero means true. -/
def readBoolean (bs : List Nat) : Option (Bool × List Nat) :=
  (readByte bs).map fun p => (decide (p.1 ≠ 0), p.2)

/-- Model of `NetConn.readFloat`: read 4 bytes, `readFloatBE`; the float32
value is represented by its 32-bit pattern. -/
def readFloat (bs : List Nat) : Option (Nat × List Nat) :=
  (rd 4 bs).map fun p => (readU32BE p.1, p.2)

/-- Model of `NetConn.readLong`: read 8 bytes, `readBigInt64BE`. -/
def readLong (bs : List Nat) : Option (Int × List Nat) :=
  (rd 8 bs).map fun p => (toInt64 (readU64BE p.1), p.2)

/-- Model of `NetConn.readUTF`: 4-byte unsigned length, then that many
content bytes when the length is positive, else the empty string. -/
def readUTF (bs : List Nat) : Option (List Nat × List Nat) := do
  let (c, r) ← rd 4 bs
  let strlen := readU32BE c
  if strlen > 0 then rd strlen r else some ([], r)

/-- Model of `NetConn.readUTFOld`: 2-byte signed length, then that many
content bytes when the length is positive, else the empty string. -/
def readUTFOld (bs : List Nat) : Option (List Nat × List Nat) := do
  let (c, r) ← rd 2 bs
  let strlen := toInt16 (readU16BE c)
  if strlen > 0 then rd strlen.toNat r else some ([], r)

/-- Model of `NetConn.readString`: null-flag byte (via `readBoolean`), then a
`readUTF` payload when the flag is clear. -/
def readString (bs : List Nat) : Option (Option (List Nat) × List Nat) := do
  let (isNull, r) ← readBoolean bs
  if isNull then some (none, r)
  else (readUTF r).map fun p => (some p.1, p.2)

/-- Model of `NetConn.readStringOld`: null-flag byte, then a `readUTFOld`
payload when the flag is clear. -/
def readStringOld (bs : List Nat) : Option (Option (List Nat) × List Nat) := do
  let (isNull, r) ← readBoolean bs
  if isNull then some (none, r)
  else (readUTFOld r).map fun p => (some p.1, p.2)

/-- Model of `NetConn.writeInt`: `writeInt32BE` throws outside the int32
range, else emits the 4-byte two's-complement big-endian image. -/
def writeInt (i : Int) : Option (List Nat) :=
  if -2147483648 ≤ i ∧ i ≤ 2147483647 then
    some (u32be ((i % 4294967296)).toNat)
  else none

/-- Model of `NetConn.writeBoolean`: a single byte, 1 for true, 0 for false. -/
def writeBoolean (b : Bool) : List Nat :=
  [if b then 1 else 0]

/-- Model of `NetConn.writeFloat`: the four bytes of the float32 bit
pattern, big-endian. -/
def writeFloat (bits : Nat) : List Nat :=
  u32be bits

/-- Model of `NetConn.writeLong`: `writeBigInt64BE` throws outside the int64
range, else emits the 8-byte two's-complement big-endian image. -/
def writeLong (i : Int) : Option (List Nat) :=
  if -9223372036854775808 ≤ i ∧ i ≤ 9223372036854775807 then
    some (u64be ((i % 18446744073709551616)).toNat)
  else none

/-- Model of `NetConn.writeString`.  The result lists, in order, the chunks
handed to `writeBuffer`, paired with the outcome: a falsy string (null or
empty) writes the single null-flag byte; a string longer than
`unsignedIntMax` bytes throws before any sub-write; otherwise the 5-byte
header (flag 0 + 4-byte length) is written, then the content bytes. -/
def writeString (s : Option (List Nat)) : List (List Nat) × WriteOutcome :=
  if jsFalsy s then ([writeBoolean true], .ok)
  else
    let bs := s.getD []
    if bs.length > unsignedIntMax then ([], .limitError)
    else ([0 :: u32be bs.length, bs], .ok)

/-- Model of `NetConn.writeStringOld`: like `writeString` but with a 2-byte
signed length and limit `signedShortMax`. -/
def writeStringOld (s : Option (List Nat)) : List (List Nat) × WriteOutcome :=
  if jsFalsy s then ([writeBoolean true], .ok)
  else
    let bs := s.getD []
    if bs.length > signedShortMax then ([], .limitError)
    else ([0 :: u16be bs.length, bs], .ok)

/-- Concatenation of the chunks a write helper handed to `writeBuffer`: the
bytes that actually reach the connection. -/
def sentBytes (r : List (List Nat) × WriteOutcome) : List Nat :=
  r.1.flatten

/-- Observable state of a `NetConn`'s socket bridging: the latched `_err`
value (an opaque error code), whether the underlying socket is destroyed,
whether the constructor's persistent error/close listeners are still
attached (the close handler removes them), the outbound-compression flag,
and whether `compressedSocket` has been created (the two fields
`writeBuffer` consults before anything else). -/
structure NC where
  err : Option Nat
  destroyed : Bool
  listeners : Bool
  compressOut : Bool
  compressedSocket : Bool
  deriving DecidableEq, Repr

/-- A freshly constructed connection: no latched error, live socket,
listeners attached, no compression. -/
def ncInit : NC :=
  { err := none, destroyed := false, listeners := true,
    compressOut := false, compressedSocket := false }

/-- Socket-level events a connection observes. -/
inductive NCEvent
  | sockError (e : Nat)
  | sockClose
  deriving DecidableEq, Repr

/-- One event of the constructor's handlers: `errorHandler` stores the error
into `_err` (unconditionally overwriting any earlier value); `closeHandler`
removes both listeners. -/
def ncStep (s : NC) (ev : NCEvent) : NC :=
  match ev with
  | .sockError e => if s.listeners then { s with err := some e } else s
  | .sockClose => if s.listeners then { s with listeners := false } else s

/-- A sequence of socket events, oldest first. -/
def ncRun (s : NC) : List NCEvent → NC
  | [] => s
  | ev :: evs => ncRun (ncStep s ev) evs

/-- How an operation attempt starts: immediate rejection with the latched
error, immediate rejection because the socket is destroyed, or engagement
with the transport (listener registration and waiting). -/
inductive Attempt
  | rejectErr (e : Nat)
  | rejectDestroyed
  | engage
  deriving DecidableEq, Repr

/-- Whether an attempt outcome touches the transport: only `engage`
registers listeners or reads/writes the socket. -/
def Attempt.engagesTransport : Attempt → Bool
  | .engage => true
  | _ => false

/-- Entry checks of `NetConn.readBuffer` (in source order): a latched `_err`
rejects first, then a destroyed socket, otherwise listeners are registered
and the read waits. -/
def readBufferAttempt (s : NC) : Attempt :=
  match s.err with
  | some e => .rejectErr e
  | none => if s.destroyed then .rejectDestroyed else .engage

/-- How a `writeBuffer` call starts.  Besides the three read-side outcomes
there is a fourth: when outbound compression is enabled the chunk is routed
to the framer's own `writeBuffer`. -/
inductive WriteAttempt
  | rejectErr (e : Nat)
  | rejectDestroyed
  | engage
  | toFramer
  deriving DecidableEq, Repr

/-- Whether a write-attempt outcome touches the underlying socket directly:
only `engage` registers listeners and writes the socket (`toFramer` hands
the chunk to the framer instead). -/
def WriteAttempt.engagesTransport : WriteAttempt → Bool
  | .engage => true
  | .toFramer => true
  | _ => false

/-- Entry of `NetConn.writeBuffer`, in source order: the FIRST branch
(`if (this.compressOut && this.compressedSocket)`) returns
`compressedSocket.writeBuffer(chunk)` without consulting the latched
`_err`; only the uncompressed path then rejects on a latched error, next
on a destroyed socket, and otherwise registers listeners and writes. -/
def writeBufferAttempt (s : NC) : WriteAttempt :=
  if s.compressOut && s.compressedSocket then .toFramer
  else
    match s.err with
    | some e => .rejectErr e
    | none => if s.destroyed then .rejectDestroyed else .engage

/-- Compression-related state of a `NetConn`: the two monotone flags and the
lazily created `CompressedSocket`.  The framer is identified by the value of
`framerCreations` at its creation, so reuse versus re-creation is
observable; `framerCreations` counts constructor calls. -/
structure CompState where
  compressIn : Bool
  compressOut : Bool
  framer : Option Nat
  framerCreations : Nat
  deriving DecidableEq, Repr

/-- Connection state before any `setCompression` call. -/
def compInit : CompState :=
  { compressIn := false, compressOut := false, framer := none,
    framerCreations := 0 }

/-- Allocate the shared framer if absent (`if (!this.compressedSocket) ...`
in `setCompression`). -/
def ensureFramer (s : CompState) : CompState :=
  if s.framer = none then
    { s with framer := some s.framerCreations,
             framerCreations := s.framerCreations + 1 }
  else s

/-- First `if` block of `NetConn.setCompression`: the inbound branch runs
only when the inbound flag is newly requested; it allocates the framer if
absent and sets the flag. -/
def setCompressionIn (ci : Bool) (s : CompState) : CompState :=
  if ci && !s.compressIn then { ensureFramer s with compressIn := true }
  else s

/-- Second `if` block of `NetConn.setCompression`: the outbound branch runs
whenever requested; it allocates the framer if absent and sets the flag. -/
def setCompressionOut (co : Bool) (s : CompState) : CompState :=
  if co then { ensureFramer s with compressOut := true } else s

/-- Model of `NetConn.setCompression(compressIn, compressOut)`: the two
branches in source order; nothing is ever reset. -/
def setCompression (ci co : Bool) (s : CompState) : CompState :=
  setCompressionOut co (setCompressionIn ci s)

/-- A sequence of `setCompression` calls, oldest first. -/
def setCompressionRun (s : CompState) : List (Bool × Bool) → CompState
  | [] => s
  | c :: cs => setCompressionRun (setCompression c.1 c.2 s) cs

end NetConn

namespace CompressedSocket

/-- Capacity of the outbound coalescing buffer
(`COMPRESSION_BUFFER_SIZE` in compressedSocket.ts). -/
def bufferSize : Nat := 64000

/-- A frame as handed to the underlying stream by `writeBufferImp`: the tag
byte (0 = raw, 1 = deflated) and the payload. -/
structure Frame where
  tag : Nat
  payload : List Nat
  deriving DecidableEq, Repr

/-- Wire serialization of one frame, exactly as `writeBufferImp` writes it:
the 5-byte header (tag + 4-byte big-endian payload length) then the
payload. -/
def frameBytes (f : Frame) : List Nat :=
  f.tag :: u32be f.payload.length ++ f.payload

/-- Outbound state of a `CompressedSocket`: the first `compressBuffPos`
bytes of the coalescing buffer, and the frames already handed to the
underlying stream, oldest first. -/
structure CSW where
  pending : List Nat
  out : List Frame
  deriving DecidableEq, Repr

/-- Outbound state right after construction: empty buffer, nothing sent. -/
def cswInit : CSW :=
  { pending := [], out := [] }

/-- Model of `writeBufferImp(chunk, doNotCompressChunk)`: emit one frame,
raw (tag 0) or deflated (tag 1). -/
def writeBufferImp (deflate : List Nat → List Nat) (chunk : List Nat)
    (doNotCompressChunk : Bool) : Frame :=
  if doNotCompressChunk then ⟨0, chunk⟩ else ⟨1, deflate chunk⟩

/-- Model of `compressAndSend`: a no-op when the pending buffer is empty,
otherwise deflate the pending bytes into a tag-1 frame and reset the
buffer position. -/
def compressAndSend (deflate : List Nat → List Nat) (s : CSW) : CSW :=
  if s.pending.length = 0 then s
  else { pending := [],
         out := s.out ++ [writeBufferImp deflate s.pending false] }

/-- Model of the `while (cnt < chunk.length)` splitting loop of
`writeBuffer`: each iteration copies the next at-most-`bufferSize` slice
into the buffer (at offset 0, setting `compressBuffPos` to the slice
length) and immediately flushes it via `compressAndSend`. -/
def splitAndSend (deflate : List Nat → List Nat) (chunk : List Nat) :
    List Frame :=
  if chunk = [] then []
  else
    writeBufferImp deflate (chunk.take bufferSize) false ::
      splitAndSend deflate (chunk.drop bufferSize)
termination_by chunk.length
decreasing_by
  simp only [List.length_drop, bufferSize]
  rename_i h
  have : chunk.length ≠ 0 := fun hz => h (List.length_eq_zero.mp hz)
  omega

/-- Model of `CompressedSocket.writeBuffer(chunk, writeUnCompressed)`.
Uncompressed writes flush any non-empty pending buffer and then emit the
chunk as a raw frame; compressed writes first flush if appending would
overflow the capacity, then either append to the buffer (chunk fits) or
split the chunk into capacity-sized slices, each deflated and framed
independently. -/
def writeBuffer (deflate : List Nat → List Nat) (s : CSW) (chunk : List Nat)
    (writeUnCompressed : Bool) : CSW :=
  if writeUnCompressed then
    let s1 := if s.pending.length > 0 then compressAndSend deflate s else s
    { s1 with out := s1.out ++ [writeBufferImp deflate chunk true] }
  else
    let s1 :=
      if s.pending.length + chunk.length > bufferSize then
        compressAndSend deflate s
      else s
    if chunk.length ≤ bufferSize then
      { s1 with pending := s1.pending ++ chunk }
    else
      { pending := [], out := s1.out ++ splitAndSend deflate chunk }

/-- Inbound state of a `CompressedSocket`: the bytes currently buffered by
the wrapped stream (`avail`), the retained header of an incomplete frame
(`waitReadBlock`), the payloads pushed to the consumer oldest first
(`delivered`), whether `destroy` has run, and the error it was given. -/
structure CSR where
  avail : List Nat
  waitReadBlock : Option (List Nat)
  delivered : List (List Nat)
  destroyed : Bool
  derr : Option Nat
  deriving DecidableEq, Repr

/-- Model of `stream.read(n)` on a non-ended stream: all-or-nothing, and
`read(0)` always returns null. -/
def streamRead (n : Nat) (bs : List Nat) : Option (List Nat × List Nat) :=
  if 0 < n ∧ n ≤ bs.length then some (bs.take n, bs.drop n) else none

/-- Result of one iteration of the `readableHandler` loop: continue looping,
or leave the loop in the given state. -/
inductive StepRes
  | more (s : CSR)
  | halt (s : CSR)
  deriving DecidableEq, Repr

/-- One iteration of the `while` loop in `_read`'s `readableHandler`: take
the retained header if present, else read 5 header bytes (stopping if
unavailable); decode tag and length; read exactly `length` payload bytes,
retaining the header and stopping if they are not all buffered; inflate a
tag-1 payload (destroying the framer on failure) and push the result, or
push a non-tag-1 payload unchanged. -/
def readStep (inflate : List Nat → Except Nat (List Nat)) (s : CSR) :
    StepRes :=
  if s.destroyed then .halt s
  else
    let hdr? : Option (List Nat × CSR) :=
      match s.waitReadBlock with
      | some b => some (b, { s with waitReadBlock := none })
      | none =>
        match streamRead 5 s.avail with
        | some (b, rest) => some (b, { s with avail := rest })
        | none => none
    match hdr? with
    | none => .halt s
    | some (b, s1) =>
      let di := b.getD 0 0
      let len := readU32BE (b.drop 1)
      match streamRead len s1.avail with
      | none => .halt { s1 with waitReadBlock := some b }
      | some (content, rest) =>
        if di = 1 then
          match inflate content with
          | .error e =>
            .halt { s1 with avail := rest, destroyed := true, derr := some e }
          | .ok inflated =>
            .more { s1 with avail := rest,
                            delivered := s1.delivered ++ [inflated] }
        else
          .more { s1 with avail := rest,
                          delivered := s1.delivered ++ [content] }

/-- Fuelled iteration of `readStep`; the fuel only bounds the loop, it never
cuts a run short when chosen as in `readableHandler`. -/
def readLoopFuel (inflate : List Nat → Except Nat (List Nat)) :
    Nat → CSR → CSR
  | 0, s => s
  | n + 1, s =>
    match readStep inflate s with
    | .halt s' => s'
    | .more s' => readLoopFuel inflate n s'

/-- One `readable` notification: run the `readableHandler` loop to its
`break`/exit.  Every continuing iteration consumes at least one buffered
byte, so `avail.length + 1` steps always reach the loop's exit. -/
def readableHandler (inflate : List Nat → Except Nat (List Nat)) (s : CSR) :
    CSR :=
  readLoopFuel inflate (s.avail.length + 1) s

end CompressedSocket

/-- A connection together with the framer it owns, for reasoning about the
effect of framer events on the connection (a `NetConn` with `compressIn`
enabled reads through `compressedSocket`). -/
structure ConnSys where
  nc : NetConn.NC
  framer : CompressedSocket.CSR
  deriving DecidableEq, Repr

/-- Delivery of one inbound `readable` notification to the framer of a
connection: only the framer state changes — `CompressedSocket._read`'s
inflate-error branch calls `cr.destroy(err)` on the framer itself and never
touches the `NetConn`, its `_err`, or the underlying socket. -/
def ConnSys.onReadable (inflate : List Nat → Except Nat (List Nat))
    (s : ConnSys) : ConnSys :=
  { s with framer := CompressedSocket.readableHandler inflate s.framer }

namespace NetService

/-- Observable synchronization state of a `NetService`: whether an
`accept()` waiter is pending, the FIFO `acceptWaitingList` of
accepted-but-undelivered connections (identified by numbers), and the
connections handed to `accept()` callers, oldest resolution first. -/
structure Svc where
  acceptPending : Bool
  acceptWaitingList : List Nat
  delivered : List Nat
  deriving DecidableEq, Repr

/-- A listener before any connection or `accept()` call. -/
def svcInit : Svc :=
  { acceptPending := false, acceptWaitingList := [], delivered := [] }

/-- Events driving the listener's synchronization logic. -/
inductive SvcEvent
  | connection (c : Nat)
  | acceptCall
  | serverClose
  deriving DecidableEq, Repr

/-- One event.  `onConnection`: a pending `accept()` waiter is resolved
immediately with the new connection, otherwise the connection is appended
to the FIFO list.  `accept()`: the waiter slot is filled, then if the FIFO
list is non-empty its head is dequeued and resolved at once.  `onClose`:
a pending waiter is rejected and cleared. -/
def svcStep (s : Svc) : SvcEvent → Svc
  | .connection c =>
    if s.acceptPending then
      { s with acceptPending := false, delivered := s.delivered ++ [c] }
    else
      { s with acceptWaitingList := s.acceptWaitingList ++ [c] }
  | .acceptCall =>
    match s.acceptWaitingList with
    | [] => { s with acceptPending := true }
    | c :: rest =>
      { s with acceptPending := false, acceptWaitingList := rest,
               delivered := s.delivered ++ [c] }
  | .serverClose => { s with acceptPending := false }

/-- A sequence of listener events, oldest first. -/
def svcRun (s : Svc) : List SvcEvent → Svc
  | [] => s
  | ev :: evs => svcRun (svcStep s ev) evs

/-- The invariant of the claim: a pending `accept()` waiter coexists only
with an empty FIFO list. -/
def svcInv (s : Svc) : Prop :=
  s.acceptPending = true → s.acceptWaitingList = []

end NetService

section WireLemmas

open NetConn

theorem rd_exact (xs ys : List Nat) : rd xs.length (xs ++ ys) = some (xs, ys) := by
  unfold rd
  rw [if_pos]
  · rw [List.take_left, List.drop_left]
  · simp

theorem streamRead_exact (xs ys : List Nat) (h : 0 < xs.length) :
    CompressedSocket.streamRead xs.length (xs ++ ys) = some (xs, ys) := by
  unfold CompressedSocket.streamRead
  rw [if_pos]
  · rw [List.take_left, List.drop_left]
  · exact ⟨h, by simp⟩

theorem toInt32_emod (i : Int) (h1 : -2147483648 ≤ i) (h2 : i ≤ 2147483647) :
    toInt32 ((i % 4294967296)).toNat = i := by
  unfold toInt32
  split <;> omega

theorem toInt64_emod (i : Int)
    (h1 : -9223372036854775808 ≤ i) (h2 : i ≤ 9223372036854775807) :
    toInt64 ((i % 18446744073709551616)).toNat = i := by
  unfold toInt64
  split <;> omega

end WireLemmas

/-- C1 counterexample: the claim's round trip fails on the empty string.
`writeString("")` takes the JavaScript-falsy branch and emits the single
null-flag byte `[1]`, which `readString` decodes as `null`, not `""`. -/
theorem c1_empty_string_decodes_as_null :
    NetConn.readString
        (NetConn.sentBytes (NetConn.writeString (some ([] : List Nat)))) =
      some (none, []) ∧
    (some ((none : Option (List Nat)), ([] : List Nat)) ≠
      some (some ([] : List Nat), ([] : List Nat))) := by
  constructor
  · rfl
  · simp

/-- C1 (amended): for every int32 `i`, boolean `b`, int64 `l`, float32 bit
pattern `f`, and non-empty string `s` of encodable length, the matching
read helper applied to the exact bytes produced by the matching write
helper returns the original value with no bytes left over; `readByte`
recovers the byte written by `writeBoolean`; the null string round-trips;
the empty string is excluded — it encodes as null (see the
counterexample). -/
theorem c1_roundtrip (i : Int) (hi1 : -2147483648 ≤ i) (hi2 : i ≤ 2147483647)
    (b : Bool) (l : Int) (hl1 : -9223372036854775808 ≤ l)
    (hl2 : l ≤ 9223372036854775807) (f : Nat) (hf : f < 4294967296)
    (s : List Nat) (hs : s ≠ []) (hlen : s.length ≤ NodeTcp.unsignedIntMax) :
    (NetConn.writeInt i).bind NetConn.readInt = some (i, []) ∧
    NetConn.readByte (NetConn.writeBoolean b) =
      some ((if b then 1 else 0 : Int), []) ∧
    NetConn.readBoolean (NetConn.writeBoolean b) = some (b, []) ∧
    (NetConn.writeLong l).bind NetConn.readLong = some (l, []) ∧
    NetConn.readFloat (NetConn.writeFloat f) = some (f, []) ∧
    (NetConn.writeString (some s)).2 = .ok ∧
    NetConn.readString (NetConn.sentBytes (NetConn.writeString (some s))) =
      some (some s, []) ∧
    NetConn.readString (NetConn.sentBytes (NetConn.writeString none)) =
      some (none, []) := by
  have hm : ((i % 4294967296)).toNat < 4294967296 := by omega
  have hml : ((l % 18446744073709551616)).toNat < 18446744073709551616 := by
    omega
  obtain ⟨a, t, rfl⟩ : ∃ a t, s = a :: t := by
    cases s with
    | nil => exact absurd rfl hs
    | cons a t => exact ⟨a, t, rfl⟩
  refine ⟨?_, ?_, ?_, ?_, ?_, ?_, ?_, ?_⟩
  · rw [NetConn.writeInt, if_pos ⟨hi1, hi2⟩]
    simp only [Option.bind_eq_bind, Option.some_bind]
    unfold NetConn.readInt
    have h4 : NetConn.rd 4 (u32be ((i % 4294967296)).toNat) =
        some (u32be ((i % 4294967296)).toNat, []) := by
      have := rd_exact (u32be ((i % 4294967296)).toNat) []
      rwa [u32be_length, List.append_nil] at this
    rw [h4, Option.map_some']
    rw [readU32BE_u32be _ hm, toInt32_emod i hi1 hi2]
  · cases b <;> rfl
  · cases b <;> rfl
  · rw [NetConn.writeLong, if_pos ⟨hl1, hl2⟩]
    simp only [Option.bind_eq_bind, Option.some_bind]
    unfold NetConn.readLong
    have h8 : NetConn.rd 8 (u64be ((l % 18446744073709551616)).toNat) =
        some (u64be ((l % 18446744073709551616)).toNat, []) := by
      have := rd_exact (u64be ((l % 18446744073709551616)).toNat) []
      rwa [u64be_length, List.append_nil] at this
    rw [h8, Option.map_some']
    rw [readU64BE_u64be _ hml, toInt64_emod l hl1 hl2]
  · unfold NetConn.readFloat NetConn.writeFloat
    have h4 : NetConn.rd 4 (u32be f) = some (u32be f, []) := by
      have := rd_exact (u32be f) []
      rwa [u32be_length, List.append_nil] at this
    rw [h4, Option.map_some', readU32BE_u32be _ hf]
  · rw [NetConn.writeString]
    rw [show jsFalsy (some (a :: t)) = false from rfl, if_neg (by simp)]
    simp only [Option.getD_some]
    rw [if_neg (by omega)]
  · rw [NetConn.writeString]
    rw [show jsFalsy (some (a :: t)) = false from rfl, if_neg (by simp)]
    simp only [Option.getD_some]
    rw [if_neg (by omega)]
    show NetConn.readString
        ((0 :: u32be (a :: t).length) ++ ((a :: t) ++ [])) = _
    rw [List.append_nil]
    unfold NetConn.readString NetConn.readBoolean NetConn.readByte
    have h1 : NetConn.rd 1 ((0 : Nat) :: (u32be (a :: t).length ++ (a :: t))) =
        some ([0], u32be (a :: t).length ++ (a :: t)) := rd_exact [0] _
    rw [show ((0 : Nat) :: u32be (a :: t).length) ++ (a :: t) =
        (0 : Nat) :: (u32be (a :: t).length ++ (a :: t)) from rfl, h1]
    simp only [Option.map_some', Option.bind_eq_bind, Option.some_bind,
      List.getD_cons_zero]
    rw [show toInt8 0 = 0 from rfl]
    simp only [ne_eq, decide_not, decide_True, Bool.not_true, Bool.false_eq_true,
      if_false]
    unfold NetConn.readUTF
    have h4 : NetConn.rd 4 (u32be (a :: t).length ++ (a :: t)) =
        some (u32be (a :: t).length, a :: t) := by
      have := rd_exact (u32be (a :: t).length) (a :: t)
      rwa [u32be_length] at this
    rw [h4]
    simp only [Option.bind_eq_bind, Option.some_bind]
    rw [readU32BE_u32be _ (by
      have : (a :: t).length ≤ NodeTcp.unsignedIntMax := hlen
      unfold NodeTcp.unsignedIntMax at this
      omega)]
    rw [if_pos (by simp)]
    have hl : NetConn.rd (a :: t).length ((a :: t) ++ []) =
        some (a :: t, []) := rd_exact (a :: t) []
    rw [List.append_nil] at hl
    rw [hl, Option.map_some']
  · rfl

/-- C1 witness: the amended round trip instantiated at concrete values. -/
theorem c1_roundtrip_witness :
    (NetConn.writeInt (-2147483648)).bind NetConn.readInt =
      some (-2147483648, []) ∧
    NetConn.readString
        (NetConn.sentBytes (NetConn.writeString (some [104, 105]))) =
      some (some [104, 105], []) :=
  ⟨(c1_roundtrip (-2147483648) (by decide) (by decide) true
      9223372036854775807 (by decide) (by decide) 0 (by decide)
      [104, 105] (by decide) (by decide)).1,
   (c1_roundtrip (-2147483648) (by decide) (by decide) true
      9223372036854775807 (by decide) (by decide) 0 (by decide)
      [104, 105] (by decide) (by decide)).2.2.2.2.2.2.1⟩

/-- C10: `writeString` and `writeStringOld` encode the empty string exactly
as they encode null — the single null-flag byte 1, with no length field and
no content bytes — and `readString` / `readStringOld` decode that byte as
null, not the empty string. -/
theorem c10_empty_string_as_null :
    NetConn.writeString (some ([] : List Nat)) = ([[1]], .ok) ∧
    NetConn.writeString none = ([[1]], .ok) ∧
    NetConn.writeStringOld (some ([] : List Nat)) = ([[1]], .ok) ∧
    NetConn.writeStringOld none = ([[1]], .ok) ∧
    NetConn.readString [1] = some (none, []) ∧
    NetConn.readStringOld [1] = some (none, []) := by
  refine ⟨rfl, rfl, rfl, rfl, rfl, rfl⟩

/-- C2: a string whose UTF-8 byte length exceeds its format's maximum
(2^32 − 1 for `writeString`, 32767 for `writeStringOld`) makes the write
throw the length error before any sub-write is issued: the outcome is
`limitError` and the list of chunks handed to `writeBuffer` is empty. -/
theorem c2_too_long_no_partial_write (s s2 : List Nat)
    (hs : s.length > NodeTcp.unsignedIntMax)
    (hs2 : s2.length > NodeTcp.signedShortMax) :
    NetConn.writeString (some s) = ([], .limitError) ∧
    NetConn.writeStringOld (some s2) = ([], .limitError) := by
  constructor
  · cases s with
    | nil => simp [NodeTcp.unsignedIntMax] at hs
    | cons a t =>
      rw [NetConn.writeString]
      rw [show jsFalsy (some (a :: t)) = false from rfl, if_neg (by simp)]
      simp only [Option.getD_some]
      rw [if_pos hs]
  · cases s2 with
    | nil => simp [NodeTcp.signedShortMax] at hs2
    | cons a t =>
      rw [NetConn.writeStringOld]
      rw [show jsFalsy (some (a :: t)) = false from rfl, if_neg (by simp)]
      simp only [Option.getD_some]
      rw [if_pos hs2]

/-- C2 witness: concrete over-long strings (2^32 bytes for the current
format, 32768 bytes for the legacy format) are rejected with no bytes
written. -/
theorem c2_too_long_no_partial_write_witness :
    (List.replicate 4294967296 (0 : Nat)).length > NodeTcp.unsignedIntMax ∧
    (List.replicate 32768 (0 : Nat)).length > NodeTcp.signedShortMax ∧
    NetConn.writeString (some (List.replicate 4294967296 (0 : Nat))) =
      ([], .limitError) ∧
    NetConn.writeStringOld (some (List.replicate 32768 (0 : Nat))) =
      ([], .limitError) := by
  have h1 : (List.replicate 4294967296 (0 : Nat)).length >
      NodeTcp.unsignedIntMax := by
    rw [List.length_replicate]; norm_num [NodeTcp.unsignedIntMax]
  have h2 : (List.replicate 32768 (0 : Nat)).length >
      NodeTcp.signedShortMax := by
    rw [List.length_replicate]; norm_num [NodeTcp.signedShortMax]
  exact ⟨h1, h2, (c2_too_long_no_partial_write _ _ h1 h2).1,
    (c2_too_long_no_partial_write _ _ h1 h2).2⟩

/-- Helper: no event of the socket handlers ever clears a latched error
(`errorHandler` overwrites it with another error, `closeHandler` only
removes listeners). -/
theorem ncStep_err_ne_none (s : NetConn.NC) (ev : NetConn.NCEvent)
    (h : s.err ≠ none) : (NetConn.ncStep s ev).err ≠ none := by
  cases ev <;> simp only [NetConn.ncStep] <;> split <;> simp_all

/-- Helper: latched-ness of the error survives any event sequence. -/
theorem ncRun_err_ne_none (s : NetConn.NC) (evs : List NetConn.NCEvent)
    (h : s.err ≠ none) : (NetConn.ncRun s evs).err ≠ none := by
  induction evs generalizing s with
  | nil => exact h
  | cons ev evs ih => exact ih _ (ncStep_err_ne_none s ev h)

/-- C3 counterexample: the connection does not latch the FIRST transport
error — `errorHandler` overwrites `_err` on every error event.  After the
event sequence [error 7, error 9] a read attempt rejects with error 9, not
with the first-observed error 7. -/
theorem c3_second_error_overwrites_first :
    NetConn.readBufferAttempt
        (NetConn.ncRun NetConn.ncInit
          [.sockError 7, .sockError 9]) = .rejectErr 9 ∧
    NetConn.Attempt.rejectErr 9 ≠ .rejectErr 7 := by
  decide

/-- C3 (amended): a Connection latches the most recently observed
TransportError (each socket error event overwrites `_err`; nothing ever
clears it).  While an error is latched, every `readBuffer` attempt rejects
immediately with the currently latched error without engaging the
transport, and so does every `writeBuffer` attempt on the uncompressed
path; but when outbound compression is enabled (`compressOut` set and the
framer created), `writeBuffer` routes the chunk to the framer WITHOUT
consulting the latched error — a chunk that fits the coalescing buffer is
simply appended there (no frame emitted), so that write resolves despite
the latched error. -/
theorem c3_error_latching (s : NetConn.NC) (e e' : Nat)
    (evs : List NetConn.NCEvent) (deflate : List Nat → List Nat)
    (fr : CompressedSocket.CSW) (chunk : List Nat)
    (hl : s.listeners = true) (he : s.err = some e') :
    (NetConn.ncStep s (.sockError e)).err = some e ∧
    (NetConn.ncRun s evs).err ≠ none ∧
    NetConn.readBufferAttempt s = .rejectErr e' ∧
    (NetConn.readBufferAttempt s).engagesTransport = false ∧
    (¬(s.compressOut = true ∧ s.compressedSocket = true) →
      NetConn.writeBufferAttempt s = .rejectErr e' ∧
      (NetConn.writeBufferAttempt s).engagesTransport = false) ∧
    (s.compressOut = true → s.compressedSocket = true →
      NetConn.writeBufferAttempt s = .toFramer) ∧
    (fr.pending.length + chunk.length ≤ CompressedSocket.bufferSize →
      CompressedSocket.writeBuffer deflate fr chunk false =
        { pending := fr.pending ++ chunk, out := fr.out }) := by
  refine ⟨?_, ncRun_err_ne_none s evs (by simp [he]), ?_, ?_, ?_, ?_, ?_⟩
  · simp only [NetConn.ncStep]
    rw [if_pos hl]
  · unfold NetConn.readBufferAttempt
    rw [he]
  · unfold NetConn.readBufferAttempt
    rw [he]
    rfl
  · intro h
    unfold NetConn.writeBufferAttempt
    rw [if_neg (by
      rw [Bool.and_eq_true]
      exact h)]
    rw [he]
    exact ⟨rfl, rfl⟩
  · intro h1 h2
    unfold NetConn.writeBufferAttempt
    rw [if_pos (by rw [Bool.and_eq_true]; exact ⟨h1, h2⟩)]
  · intro hfit
    unfold CompressedSocket.writeBuffer
    rw [if_neg (by simp)]
    split_ifs <;> first | rfl | (exfalso; omega)

/-- C3 witness: a connection that latched error 5.  Without compression a
write attempt rejects with that error; the same connection with outbound
compression enabled routes the write to the framer instead, and a fitting
3-byte chunk is merely buffered there. -/
theorem c3_error_latching_witness :
    (NetConn.ncStep
        { err := some 5, destroyed := false, listeners := true,
          compressOut := false, compressedSocket := false }
        (.sockError 3)).err = some 3 ∧
    NetConn.readBufferAttempt
        { err := some 5, destroyed := false, listeners := true,
          compressOut := false, compressedSocket := false } =
      .rejectErr 5 ∧
    NetConn.writeBufferAttempt
        { err := some 5, destroyed := false, listeners := true,
          compressOut := false, compressedSocket := false } =
      .rejectErr 5 ∧
    NetConn.writeBufferAttempt
        { err := some 5, destroyed := false, listeners := true,
          compressOut := true, compressedSocket := true } = .toFramer ∧
    CompressedSocket.writeBuffer (fun l => l)
        { pending := [], out := [] } [1, 2, 3] false =
      { pending := [] ++ [1, 2, 3], out := [] } :=
  ⟨(c3_error_latching
      { err := some 5, destroyed := false, listeners := true,
        compressOut := false, compressedSocket := false }
      3 5 [.sockClose] (fun l => l) { pending := [], out := [] } [1, 2, 3]
      rfl rfl).1,
   (c3_error_latching
      { err := some 5, destroyed := false, listeners := true,
        compressOut := false, compressedSocket := false }
      3 5 [.sockClose] (fun l => l) { pending := [], out := [] } [1, 2, 3]
      rfl rfl).2.2.1,
   ((c3_error_latching
      { err := some 5, destroyed := false, listeners := true,
        compressOut := false, compressedSocket := false }
      3 5 [.sockClose] (fun l => l) { pending := [], out := [] } [1, 2, 3]
      rfl rfl).2.2.2.2.1 (by simp)).1,
   (c3_error_latching
      { err := some 5, destroyed := false, listeners := true,
        compressOut := true, compressedSocket := true }
      3 5 [.sockClose] (fun l => l) { pending := [], out := [] } [1, 2, 3]
      rfl rfl).2.2.2.2.2.1 rfl rfl,
   (c3_error_latching
      { err := some 5, destroyed := false, listeners := true,
        compressOut := false, compressedSocket := false }
      3 5 [.sockClose] (fun l => l) { pending := [], out := [] } [1, 2, 3]
      rfl rfl).2.2.2.2.2.2 (by norm_num [CompressedSocket.bufferSize])⟩

section CompressionFlags

open NetConn

theorem ensureFramer_compressIn (s : CompState) :
    (ensureFramer s).compressIn = s.compressIn := by
  unfold ensureFramer
  split <;> rfl

theorem ensureFramer_compressOut (s : CompState) :
    (ensureFramer s).compressOut = s.compressOut := by
  unfold ensureFramer
  split <;> rfl

theorem ensureFramer_framer_some (s : CompState) (k : Nat)
    (h : s.framer = some k) : (ensureFramer s).framer = some k := by
  unfold ensureFramer
  rw [if_neg (by simp [h])]
  exact h

theorem ensureFramer_creations_some (s : CompState) (k : Nat)
    (h : s.framer = some k) :
    (ensureFramer s).framerCreations = s.framerCreations := by
  unfold ensureFramer
  rw [if_neg (by simp [h])]

theorem setCompressionIn_mono_in (s : CompState) (ci : Bool)
    (h : s.compressIn = true) : (setCompressionIn ci s).compressIn = true := by
  unfold setCompressionIn
  rw [h]
  simpa using h

theorem setCompressionIn_compressOut (s : CompState) (ci : Bool) :
    (setCompressionIn ci s).compressOut = s.compressOut := by
  unfold setCompressionIn
  split
  · exact ensureFramer_compressOut s
  · rfl

theorem setCompressionIn_framer_some (s : CompState) (ci : Bool) (k : Nat)
    (h : s.framer = some k) : (setCompressionIn ci s).framer = some k := by
  unfold setCompressionIn
  split
  · exact ensureFramer_framer_some s k h
  · exact h

theorem setCompressionIn_creations_some (s : CompState) (ci : Bool) (k : Nat)
    (h : s.framer = some k) :
    (setCompressionIn ci s).framerCreations = s.framerCreations := by
  unfold setCompressionIn
  split
  · exact ensureFramer_creations_some s k h
  · rfl

theorem setCompressionOut_compressIn (s : CompState) (co : Bool) :
    (setCompressionOut co s).compressIn = s.compressIn := by
  unfold setCompressionOut
  split
  · exact ensureFramer_compressIn s
  · rfl

theorem setCompressionOut_mono_out (s : CompState) (co : Bool)
    (h : s.compressOut = true) : (setCompressionOut co s).compressOut = true := by
  unfold setCompressionOut
  split
  · rfl
  · exact h

theorem setCompressionOut_framer_some (s : CompState) (co : Bool) (k : Nat)
    (h : s.framer = some k) : (setCompressionOut co s).framer = some k := by
  unfold setCompressionOut
  split
  · exact ensureFramer_framer_some s k h
  · exact h

theorem setCompressionOut_creations_some (s : CompState) (co : Bool) (k : Nat)
    (h : s.framer = some k) :
    (setCompressionOut co s).framerCreations = s.framerCreations := by
  unfold setCompressionOut
  split
  · exact ensureFramer_creations_some s k h
  · rfl

theorem setCompression_mono_in (s : CompState) (ci co : Bool)
    (h : s.compressIn = true) : (setCompression ci co s).compressIn = true := by
  unfold setCompression
  rw [setCompressionOut_compressIn]
  exact setCompressionIn_mono_in s ci h

theorem setCompression_mono_out (s : CompState) (ci co : Bool)
    (h : s.compressOut = true) : (setCompression ci co s).compressOut = true := by
  unfold setCompression
  apply setCompressionOut_mono_out
  rw [setCompressionIn_compressOut]
  exact h

theorem setCompression_framer_some (s : CompState) (ci co : Bool) (k : Nat)
    (h : s.framer = some k) : (setCompression ci co s).framer = some k := by
  unfold setCompression
  exact setCompressionOut_framer_some _ co k (setCompressionIn_framer_some s ci k h)

theorem setCompression_creations_some (s : CompState) (ci co : Bool) (k : Nat)
    (h : s.framer = some k) :
    (setCompression ci co s).framerCreations = s.framerCreations := by
  unfold setCompression
  rw [setCompressionOut_creations_some _ co k (setCompressionIn_framer_some s ci k h)]
  exact setCompressionIn_creations_some s ci k h

theorem setCompressionRun_mono_in (s : CompState) (cs : List (Bool × Bool))
    (h : s.compressIn = true) : (setCompressionRun s cs).compressIn = true := by
  induction cs generalizing s with
  | nil => exact h
  | cons c cs ih => exact ih _ (setCompression_mono_in s c.1 c.2 h)

theorem setCompressionRun_mono_out (s : CompState) (cs : List (Bool × Bool))
    (h : s.compressOut = true) : (setCompressionRun s cs).compressOut = true := by
  induction cs generalizing s with
  | nil => exact h
  | cons c cs ih => exact ih _ (setCompression_mono_out s c.1 c.2 h)

theorem setCompressionRun_framer_some (s : CompState) (cs : List (Bool × Bool))
    (k : Nat) (h : s.framer = some k) :
    (setCompressionRun s cs).framer = some k := by
  induction cs generalizing s with
  | nil => exact h
  | cons c cs ih => exact ih _ (setCompression_framer_some s c.1 c.2 k h)

/-- States of the compression bookkeeping reachable from a fresh
connection: either no framer was ever constructed (and no direction is
enabled), or exactly one framer was constructed and is still installed. -/
def compReach (s : CompState) : Prop :=
  (s.framer = none ∧ s.compressIn = false ∧ s.compressOut = false ∧
    s.framerCreations = 0) ∨
  (s.framer = some 0 ∧ s.framerCreations = 1)

theorem compReach_init : compReach compInit :=
  Or.inl ⟨rfl, rfl, rfl, rfl⟩

theorem compReach_step (s : CompState) (ci co : Bool) (h : compReach s) :
    compReach (setCompression ci co s) := by
  rcases h with ⟨hf, hi, ho, hc⟩ | ⟨hf, hc⟩
  · cases s
    simp only at hf hi ho hc
    subst hf; subst hi; subst ho; subst hc
    cases ci <;> cases co <;>
      simp [compReach, setCompression, setCompressionIn, setCompressionOut,
        ensureFramer]
  · exact Or.inr ⟨setCompression_framer_some s ci co 0 hf,
      by rw [setCompression_creations_some s ci co 0 hf]; exact hc⟩

theorem compReach_run (s : CompState) (cs : List (Bool × Bool))
    (h : compReach s) : compReach (setCompressionRun s cs) := by
  induction cs generalizing s with
  | nil => exact h
  | cons c cs ih => exact ih _ (compReach_step s c.1 c.2 h)

theorem setCompression_framer_created (s : CompState) (ci co : Bool)
    (h : compReach s) :
    ((setCompression ci co s).framer = none ↔
      s.framer = none ∧ ¬(ci = true ∨ co = true)) := by
  rcases h with ⟨hf, hi, ho, hc⟩ | ⟨hf, hc⟩
  · cases s
    simp only at hf hi ho hc
    subst hf; subst hi; subst ho; subst hc
    cases ci <;> cases co <;>
      simp [setCompression, setCompressionIn, setCompressionOut, ensureFramer]
  · rw [setCompression_framer_some s ci co 0 hf, hf]
    simp

theorem setCompressionRun_framer_iff (s : CompState)
    (cs : List (Bool × Bool)) (h : compReach s) :
    ((setCompressionRun s cs).framer = none ↔
      s.framer = none ∧ ∀ c ∈ cs, ¬(c.1 = true ∨ c.2 = true)) := by
  induction cs generalizing s with
  | nil => simp [setCompressionRun]
  | cons c cs ih =>
    rw [show setCompressionRun s (c :: cs) =
        setCompressionRun (setCompression c.1 c.2 s) cs from rfl]
    rw [ih _ (compReach_step s c.1 c.2 h)]
    rw [setCompression_framer_created s c.1 c.2 h]
    simp only [List.forall_mem_cons]
    tauto

end CompressionFlags

/-- C9: the per-direction compression flags are monotone under any sequence
of `setCompression(in, out)` calls — a flag once true is never reset, each
direction on its own; the framer is never replaced once installed; at most
one framer is ever constructed from a fresh connection; and starting from
a fresh connection a framer exists exactly when some call so far enabled
at least one direction. -/
theorem c9_compression_monotone (s : NetConn.CompState)
    (cs : List (Bool × Bool)) (k : Nat) :
    (s.compressIn = true →
      (NetConn.setCompressionRun s cs).compressIn = true) ∧
    (s.compressOut = true →
      (NetConn.setCompressionRun s cs).compressOut = true) ∧
    (s.framer = some k →
      (NetConn.setCompressionRun s cs).framer = some k) ∧
    (NetConn.setCompressionRun NetConn.compInit cs).framerCreations ≤ 1 ∧
    ((NetConn.setCompressionRun NetConn.compInit cs).framer ≠ none ↔
      ∃ c ∈ cs, c.1 = true ∨ c.2 = true) := by
  refine ⟨fun hin => setCompressionRun_mono_in s cs hin,
    fun hout => setCompressionRun_mono_out s cs hout,
    fun hfr => setCompressionRun_framer_some s cs k hfr, ?_, ?_⟩
  · rcases compReach_run NetConn.compInit cs compReach_init with
      ⟨_, _, _, hc⟩ | ⟨_, hc⟩ <;> omega
  · rw [not_iff_comm, setCompressionRun_framer_iff NetConn.compInit cs
      compReach_init]
    simp [NetConn.compInit]

/-- C9 witness: a connection that enabled only the inbound direction
(`setCompression(true, false)`) keeps that flag and its framer across
further calls, and the lazy-creation characterization holds on a concrete
call sequence. -/
theorem c9_compression_monotone_witness :
    (NetConn.setCompression true false NetConn.compInit).compressIn
      = true ∧
    (NetConn.setCompression true false NetConn.compInit).framer
      = some 0 ∧
    (NetConn.setCompressionRun
        (NetConn.setCompression true false NetConn.compInit)
        [(false, false), (false, true)]).compressIn = true ∧
    (NetConn.setCompressionRun
        (NetConn.setCompression true false NetConn.compInit)
        [(false, false), (false, true)]).framer = some 0 ∧
    ((NetConn.setCompressionRun NetConn.compInit
        [(false, false), (false, true)]).framer ≠ none ↔
      ∃ c ∈ [((false : Bool), (false : Bool)), (false, true)],
        c.1 = true ∨ c.2 = true) :=
  ⟨by decide, by decide,
   (c9_compression_monotone
      (NetConn.setCompression true false NetConn.compInit)
      [(false, false), (false, true)] 0).1 (by decide),
   (c9_compression_monotone
      (NetConn.setCompression true false NetConn.compInit)
      [(false, false), (false, true)] 0).2.2.1 (by decide),
   (c9_compression_monotone
      (NetConn.setCompression true false NetConn.compInit)
      [(false, false), (false, true)] 0).2.2.2.2⟩

section Listener

open NetService

theorem svcStep_inv (s : Svc) (ev : SvcEvent) : svcInv (svcStep s ev) := by
  cases ev with
  | connection c =>
    by_cases h : s.acceptPending = true
    · intro hp
      simp [svcStep, h] at hp
    · have hb : s.acceptPending = false := by
        cases hq : s.acceptPending
        · rfl
        · exact absurd hq h
      intro hp
      simp [svcStep, hb] at hp
  | acceptCall =>
    cases hq : s.acceptWaitingList with
    | nil =>
      intro _
      simp [svcStep, hq]
    | cons c rest =>
      intro hp
      simp [svcStep, hq] at hp
  | serverClose =>
    intro hp
    simp [svcStep] at hp

theorem svcRun_inv (s : Svc) (evs : List SvcEvent) (h : svcInv s) :
    svcInv (svcRun s evs) := by
  induction evs generalizing s with
  | nil => exact h
  | cons ev evs ih => exact ih _ (svcStep_inv s ev)

theorem svcRun_append (s : Svc) (evs1 evs2 : List SvcEvent) :
    svcRun s (evs1 ++ evs2) = svcRun (svcRun s evs1) evs2 := by
  induction evs1 generalizing s with
  | nil => rfl
  | cons ev evs1 ih => exact ih (svcStep s ev)

theorem svcRun_connections (cs : List Nat) (q d : List Nat) :
    svcRun { acceptPending := false, acceptWaitingList := q, delivered := d }
        (cs.map SvcEvent.connection) =
      { acceptPending := false, acceptWaitingList := q ++ cs,
        delivered := d } := by
  induction cs generalizing q with
  | nil => simp [svcRun]
  | cons c cs ih =>
    rw [List.map_cons]
    rw [show svcRun
        { acceptPending := false, acceptWaitingList := q, delivered := d }
        (SvcEvent.connection c :: cs.map SvcEvent.connection) =
      svcRun (svcStep
        { acceptPending := false, acceptWaitingList := q, delivered := d }
        (SvcEvent.connection c)) (cs.map SvcEvent.connection) from rfl]
    rw [show svcStep
        { acceptPending := false, acceptWaitingList := q, delivered := d }
        (SvcEvent.connection c) =
      { acceptPending := false, acceptWaitingList := q ++ [c],
        delivered := d } from by simp [svcStep]]
    rw [ih (q ++ [c])]
    simp

theorem svcRun_accepts (q d : List Nat) :
    svcRun { acceptPending := false, acceptWaitingList := q, delivered := d }
        (List.replicate q.length SvcEvent.acceptCall) =
      { acceptPending := false, acceptWaitingList := [],
        delivered := d ++ q } := by
  induction q generalizing d with
  | nil => simp [svcRun]
  | cons c rest ih =>
    rw [show (c :: rest).length = rest.length + 1 from rfl,
      List.replicate_succ]
    rw [show svcRun
        { acceptPending := false, acceptWaitingList := c :: rest,
          delivered := d }
        (SvcEvent.acceptCall :: List.replicate rest.length SvcEvent.acceptCall) =
      svcRun (svcStep
        { acceptPending := false, acceptWaitingList := c :: rest,
          delivered := d } SvcEvent.acceptCall)
        (List.replicate rest.length SvcEvent.acceptCall) from rfl]
    rw [show svcStep
        { acceptPending := false, acceptWaitingList := c :: rest,
          delivered := d } SvcEvent.acceptCall =
      { acceptPending := false, acceptWaitingList := rest,
        delivered := d ++ [c] } from rfl]
    rw [ih (d ++ [c])]
    simp

/-- C8: the accept-waiter/queue invariant holds after every event sequence
from a fresh listener (a pending `accept()` waiter never coexists with a
non-empty FIFO list); a new connection resolves a pending waiter
immediately (leaving the list untouched) and is queued only otherwise;
`accept()` dequeues the oldest queued connection; and `accept()` calls made
after a batch of unclaimed connections receive them in
first-accepted-first-delivered order. -/
theorem c8_accept_fifo (s : NetService.Svc) (c : Nat) (rest : List Nat)
    (evs : List NetService.SvcEvent) (cs : List Nat) :
    NetService.svcInv (NetService.svcRun NetService.svcInit evs) ∧
    (s.acceptPending = true →
      NetService.svcStep s (.connection c) =
        { s with acceptPending := false,
                 delivered := s.delivered ++ [c] }) ∧
    (s.acceptPending = false →
      NetService.svcStep s (.connection c) =
        { s with acceptWaitingList := s.acceptWaitingList ++ [c] }) ∧
    (s.acceptWaitingList = c :: rest →
      NetService.svcStep s .acceptCall =
        { s with acceptPending := false, acceptWaitingList := rest,
                 delivered := s.delivered ++ [c] }) ∧
    (NetService.svcRun NetService.svcInit
        (cs.map NetService.SvcEvent.connection ++
          List.replicate cs.length NetService.SvcEvent.acceptCall)).delivered
      = cs := by
  refine ⟨svcRun_inv _ evs (fun h => rfl), ?_, ?_, ?_, ?_⟩
  · intro h
    simp [svcStep, h]
  · intro h
    simp [svcStep, h]
  · intro h
    simp [svcStep, h]
  · rw [svcRun_append]
    rw [show NetService.svcInit =
      { acceptPending := false, acceptWaitingList := [],
        delivered := [] } from rfl]
    rw [svcRun_connections cs [] []]
    rw [show (([] : List Nat) ++ cs) = cs from by simp]
    rw [svcRun_accepts cs []]
    simp

/-- C8 witness: three connections arrive unclaimed, three `accept()` calls
retrieve them oldest first. -/
theorem c8_accept_fifo_witness :
    ({ acceptPending := true, acceptWaitingList := [],
        delivered := [] } : NetService.Svc).acceptPending = true ∧
    (NetService.svcRun NetService.svcInit
        ([10, 20, 30].map NetService.SvcEvent.connection ++
          List.replicate 3 NetService.SvcEvent.acceptCall)).delivered
      = [10, 20, 30] :=
  ⟨rfl,
   (c8_accept_fifo
      { acceptPending := true, acceptWaitingList := [], delivered := [] }
      0 [] [] [10, 20, 30]).2.2.2.2⟩

end Listener

section Outbound

open CompressedSocket

theorem splitAndSend_pieces (deflate : List Nat → List Nat)
    (chunk : List Nat) :
    ∃ pieces : List (List Nat), pieces.flatten = chunk ∧
      (∀ p ∈ pieces, p ≠ [] ∧ p.length ≤ bufferSize) ∧
      splitAndSend deflate chunk =
        pieces.map fun p => writeBufferImp deflate p false := by
  by_cases h : chunk = []
  · subst h
    exact ⟨[], rfl, by simp, by rw [splitAndSend]; simp⟩
  · obtain ⟨ps, h1, h2, h3⟩ := splitAndSend_pieces deflate (chunk.drop bufferSize)
    refine ⟨chunk.take bufferSize :: ps, ?_, ?_, ?_⟩
    · rw [List.flatten_cons, h1, List.take_append_drop]
    · intro p hp
      rcases List.mem_cons.mp hp with hp | hp
      · subst hp
        constructor
        · simp only [ne_eq, List.take_eq_nil_iff]
          push_neg
          exact ⟨by simp [bufferSize], h⟩
        · simp [List.length_take]
      · exact h2 p hp
    · rw [splitAndSend, if_neg h, h3]
      rfl
termination_by chunk.length
decreasing_by
  simp only [List.length_drop, bufferSize]
  have : chunk.length ≠ 0 := fun hz => h (List.length_eq_zero.mp hz)
  omega

/-- C4: outbound buffering of the CompressionFramer.  A compressed write
that fits appends to the 64000-byte pending buffer and emits nothing; one
that would overflow capacity first flushes the pending buffer as a single
deflated tag-1 frame and then starts a fresh buffer with the new data; a
write larger than the capacity is split into non-empty chunks of at most
64000 bytes, each deflated and framed independently (after any pending
flush); a write marked uncompressed flushes a non-empty pending buffer
before emitting its own payload as a tag-0 frame; and `compressAndSend`
(flush) is a no-op on an empty pending buffer. -/
theorem c4_outbound_buffering (deflate : List Nat → List Nat)
    (s : CompressedSocket.CSW) (chunk : List Nat) :
    (s.pending.length + chunk.length ≤ CompressedSocket.bufferSize →
      CompressedSocket.writeBuffer deflate s chunk false =
        { pending := s.pending ++ chunk, out := s.out }) ∧
    (s.pending.length + chunk.length > CompressedSocket.bufferSize →
      chunk.length ≤ CompressedSocket.bufferSize →
      CompressedSocket.writeBuffer deflate s chunk false =
        { pending := chunk,
          out := s.out ++ [⟨1, deflate s.pending⟩] }) ∧
    (chunk.length > CompressedSocket.bufferSize →
      ∃ pieces : List (List Nat), pieces.flatten = chunk ∧
        (∀ p ∈ pieces, p ≠ [] ∧
          p.length ≤ CompressedSocket.bufferSize) ∧
        CompressedSocket.writeBuffer deflate s chunk false =
          { pending := [],
            out := (CompressedSocket.compressAndSend deflate s).out ++
              pieces.map fun p => ⟨1, deflate p⟩ }) ∧
    (CompressedSocket.writeBuffer deflate s chunk true =
      { pending := [],
        out := s.out ++
          (if s.pending.length = 0 then [] else [⟨1, deflate s.pending⟩]) ++
          [⟨0, chunk⟩] }) ∧
    (s.pending.length = 0 →
      CompressedSocket.compressAndSend deflate s = s) := by
  refine ⟨?_, ?_, ?_, ?_, ?_⟩
  · intro hfit
    unfold writeBuffer
    rw [if_neg (by simp)]
    split_ifs <;> first | rfl | (exfalso; omega)
  · intro hover hle
    have hpend : s.pending.length ≠ 0 := by omega
    unfold writeBuffer
    rw [if_neg (by simp)]
    split_ifs
    unfold compressAndSend
    rw [if_neg hpend]
    simp [writeBufferImp]
  · intro hbig
    obtain ⟨pieces, h1, h2, h3⟩ := splitAndSend_pieces deflate chunk
    refine ⟨pieces, h1, h2, ?_⟩
    unfold writeBuffer
    rw [if_neg (by simp)]
    split_ifs <;> first
      | (exfalso; omega)
      | (rw [h3]
         rw [show (fun p => writeBufferImp deflate p false) =
            (fun p => (⟨1, deflate p⟩ : Frame)) from funext fun p => by
          unfold writeBufferImp
          rw [if_neg (by simp)]])
  · unfold writeBuffer
    rw [if_pos rfl]
    split_ifs with h1 h2
    · exfalso; omega
    · unfold compressAndSend
      rw [if_neg (by omega)]
      simp [writeBufferImp]
    · have hnil : s.pending = [] := List.length_eq_zero.mp (by omega)
      simp [writeBufferImp, hnil]
    · exfalso; omega
  · intro hp
    unfold compressAndSend
    rw [if_pos hp]

/-- C4 witness: the buffering behaviour at concrete states — a small
append, an overflowing append after 64000 buffered bytes, a 64001-byte
oversized write, an uncompressed write, and an empty flush. -/
theorem c4_outbound_buffering_witness :
    ((0 : Nat) + 3 ≤ CompressedSocket.bufferSize ∧
      CompressedSocket.writeBuffer (fun l => l) CompressedSocket.cswInit
          [1, 2, 3] false =
        { pending := [1, 2, 3], out := [] }) ∧
    ((List.replicate 64000 (0 : Nat)).length + 1 >
        CompressedSocket.bufferSize ∧
      CompressedSocket.writeBuffer (fun l => l)
          { pending := List.replicate 64000 0, out := [] } [5] false =
        { pending := [5],
          out := [⟨1, List.replicate 64000 0⟩] }) ∧
    CompressedSocket.compressAndSend (fun l => l)
        CompressedSocket.cswInit = CompressedSocket.cswInit := by
  refine ⟨⟨by norm_num [CompressedSocket.bufferSize], ?_⟩,
    ⟨by rw [List.length_replicate]; norm_num [CompressedSocket.bufferSize], ?_⟩,
    ?_⟩
  · have := (c4_outbound_buffering (fun l => l) CompressedSocket.cswInit
      [1, 2, 3]).1 (by norm_num [CompressedSocket.bufferSize,
        CompressedSocket.cswInit])
    rw [this]
    rfl
  · have := (c4_outbound_buffering (fun l => l)
      { pending := List.replicate 64000 0, out := [] } [5]).2.1
      (by rw [show ({ pending := List.replicate 64000 (0 : Nat), out := [] } :
          CompressedSocket.CSW).pending = List.replicate 64000 0 from rfl,
        List.length_replicate]; norm_num [CompressedSocket.bufferSize])
      (by norm_num [CompressedSocket.bufferSize])
    rw [this]
    rfl
  · exact (c4_outbound_buffering (fun l => l) CompressedSocket.cswInit
      []).2.2.2.2 rfl

end Outbound

section Inbound

open CompressedSocket

theorem readLoopFuel_halt (inflate : List Nat → Except Nat (List Nat))
    (s s' : CSR) (n : Nat) (h : readStep inflate s = .halt s') (hn : 0 < n) :
    readLoopFuel inflate n s = s' := by
  cases n with
  | zero => omega
  | succ m => simp [readLoopFuel, h]

theorem readLoopFuel_more (inflate : List Nat → Except Nat (List Nat))
    (s s' : CSR) (n : Nat) (h : readStep inflate s = .more s') (hn : 0 < n) :
    readLoopFuel inflate n s = readLoopFuel inflate (n - 1) s' := by
  cases n with
  | zero => omega
  | succ m => simp [readLoopFuel, h]

theorem streamRead_header (t L : Nat) (rest : List Nat) :
    streamRead 5 ((t :: u32be L) ++ rest) = some (t :: u32be L, rest) := by
  have h := streamRead_exact (t :: u32be L) rest (by simp [u32be])
  rwa [show (t :: u32be L).length = 5 from by simp [u32be]] at h

theorem streamRead_nil (n : Nat) (hn : 0 < n) :
    streamRead n ([] : List Nat) = none := by
  unfold streamRead
  rw [if_neg]
  simp only [List.length_nil]
  omega

theorem readStep_destroyed (inflate : List Nat → Except Nat (List Nat))
    (s : CSR) (h : s.destroyed = true) : readStep inflate s = .halt s := by
  unfold readStep
  rw [h]
  rfl

theorem readStep_no_header (inflate : List Nat → Except Nat (List Nat))
    (s : CSR) (h : s.destroyed = false) (hw : s.waitReadBlock = none)
    (ha : s.avail.length < 5) : readStep inflate s = .halt s := by
  unfold readStep
  rw [h, hw]
  have hsr : streamRead 5 s.avail = none := by
    unfold streamRead
    rw [if_neg (by omega)]
  simp [hsr]

theorem readStep_complete (inflate : List Nat → Except Nat (List Nat))
    (t : Nat) (payload rest : List Nat) (dl : List (List Nat))
    (hpos : 0 < payload.length) (hlt : payload.length < 4294967296) :
    readStep inflate
      { avail := (t :: u32be payload.length) ++ (payload ++ rest),
        waitReadBlock := none, delivered := dl, destroyed := false,
        derr := none } =
      (if t = 1 then
        match inflate payload with
        | .error e => .halt ⟨rest, none, dl, true, some e⟩
        | .ok w => .more ⟨rest, none, dl ++ [w], false, none⟩
      else .more ⟨rest, none, dl ++ [payload], false, none⟩) := by
  unfold readStep
  simp only [Bool.false_eq_true, if_false, streamRead_header,
    List.getD_cons_zero, List.drop_succ_cons, List.drop_zero,
    readU32BE_u32be payload.length hlt,
    streamRead_exact payload rest hpos]

theorem readStep_wait (inflate : List Nat → Except Nat (List Nat))
    (t L : Nat) (part : List Nat) (dl : List (List Nat))
    (hL : part.length < L) (hlt : L < 4294967296) :
    readStep inflate
      { avail := (t :: u32be L) ++ part, waitReadBlock := none,
        delivered := dl, destroyed := false, derr := none } =
      .halt ⟨part, some (t :: u32be L), dl, false, none⟩ := by
  unfold readStep
  simp only [Bool.false_eq_true, if_false, streamRead_header,
    List.getD_cons_zero, List.drop_succ_cons, List.drop_zero,
    readU32BE_u32be L hlt]
  have : streamRead L part = none := by
    unfold streamRead
    rw [if_neg (by omega)]
  rw [this]

theorem readStep_resume (inflate : List Nat → Except Nat (List Nat))
    (t : Nat) (payload rest : List Nat) (dl : List (List Nat))
    (hpos : 0 < payload.length) (hlt : payload.length < 4294967296) :
    readStep inflate
      { avail := payload ++ rest,
        waitReadBlock := some (t :: u32be payload.length),
        delivered := dl, destroyed := false, derr := none } =
      (if t = 1 then
        match inflate payload with
        | .error e => .halt ⟨rest, none, dl, true, some e⟩
        | .ok w => .more ⟨rest, none, dl ++ [w], false, none⟩
      else .more ⟨rest, none, dl ++ [payload], false, none⟩) := by
  unfold readStep
  simp only [Bool.false_eq_true, if_false,
    List.getD_cons_zero, List.drop_succ_cons, List.drop_zero,
    readU32BE_u32be payload.length hlt,
    streamRead_exact payload rest hpos]

end Inbound

theorem compressAndSend_tags (deflate : List Nat → List Nat)
    (s : CompressedSocket.CSW) :
    ∀ f ∈ (CompressedSocket.compressAndSend deflate s).out,
      f ∈ s.out ∨ f.tag = 1 := by
  unfold CompressedSocket.compressAndSend
  split
  · exact fun f hf => Or.inl hf
  · intro f hf
    rcases List.mem_append.mp hf with hf | hf
    · exact Or.inl hf
    · right
      rcases List.mem_singleton.mp hf with rfl
      rfl

theorem writeBuffer_tags (deflate : List Nat → List Nat)
    (s : CompressedSocket.CSW) (chunk : List Nat) (unc : Bool) :
    ∀ f ∈ (CompressedSocket.writeBuffer deflate s chunk unc).out,
      f ∈ s.out ∨ f.tag = 0 ∨ f.tag = 1 := by
  have hsplit : ∀ f ∈ CompressedSocket.splitAndSend deflate chunk,
      f.tag = 1 := by
    intro f hf
    obtain ⟨ps, _, _, h3⟩ := splitAndSend_pieces deflate chunk
    rw [h3] at hf
    obtain ⟨p, _, hp⟩ := List.mem_map.mp hf
    rw [show CompressedSocket.writeBufferImp deflate p false =
        ⟨1, deflate p⟩ from by
      unfold CompressedSocket.writeBufferImp
      rw [if_neg (by simp)]] at hp
    rw [← hp]
  have hcs : ∀ f ∈ (CompressedSocket.compressAndSend deflate s).out,
      f ∈ s.out ∨ f.tag = 0 ∨ f.tag = 1 := by
    intro f hf
    rcases compressAndSend_tags deflate s f hf with hf | hf
    · exact Or.inl hf
    · exact Or.inr (Or.inr hf)
  unfold CompressedSocket.writeBuffer
  split_ifs <;> intro f hf <;>
    simp only [List.mem_append, List.mem_singleton] at hf <;>
    (try rcases hf with hf | hf) <;>
    (try rcases hf with hf | hf) <;>
    first
      | exact hcs f hf
      | exact Or.inl hf
      | exact Or.inr (Or.inr (hsplit f hf))
      | exact Or.inr (Or.inl (by rw [hf]))
      | exact Or.inr (Or.inl rfl)

section Handler

open CompressedSocket

theorem readableHandler_one_frame_raw
    (inflate : List Nat → Except Nat (List Nat)) (t : Nat)
    (p : List Nat) (dl : List (List Nat)) (ht : t ≠ 1)
    (hpos : 0 < p.length) (hlt : p.length < 4294967296) :
    readableHandler inflate
        ⟨(t :: u32be p.length) ++ (p ++ []), none, dl, false, none⟩ =
      ⟨[], none, dl ++ [p], false, none⟩ := by
  unfold readableHandler
  have h1 := readStep_complete inflate t p [] dl hpos hlt
  rw [if_neg ht] at h1
  rw [readLoopFuel_more inflate _ _ _ h1 (by omega)]
  rw [readLoopFuel_halt inflate _ _ _
    (readStep_no_header inflate ⟨[], none, dl ++ [p], false, none⟩ rfl rfl
      (by simp)) (by simp [u32be])]

theorem readableHandler_one_frame_deflated
    (inflate : List Nat → Except Nat (List Nat))
    (p w : List Nat) (dl : List (List Nat)) (hok : inflate p = .ok w)
    (hpos : 0 < p.length) (hlt : p.length < 4294967296) :
    readableHandler inflate
        ⟨(1 :: u32be p.length) ++ (p ++ []), none, dl, false, none⟩ =
      ⟨[], none, dl ++ [w], false, none⟩ := by
  unfold readableHandler
  have h1 := readStep_complete inflate 1 p [] dl hpos hlt
  rw [if_pos rfl, hok] at h1
  rw [readLoopFuel_more inflate _ _ _ h1 (by omega)]
  rw [readLoopFuel_halt inflate _ _ _
    (readStep_no_header inflate ⟨[], none, dl ++ [w], false, none⟩ rfl rfl
      (by simp)) (by simp [u32be])]

theorem readableHandler_inflate_error
    (inflate : List Nat → Except Nat (List Nat))
    (p : List Nat) (e : Nat) (dl : List (List Nat))
    (herr : inflate p = .error e)
    (hpos : 0 < p.length) (hlt : p.length < 4294967296) :
    readableHandler inflate
        ⟨(1 :: u32be p.length) ++ (p ++ []), none, dl, false, none⟩ =
      ⟨[], none, dl, true, some e⟩ := by
  unfold readableHandler
  have h1 := readStep_complete inflate 1 p [] dl hpos hlt
  rw [if_pos rfl, herr] at h1
  rw [readLoopFuel_halt inflate _ _ _ h1 (by omega)]

theorem readableHandler_destroyed
    (inflate : List Nat → Except Nat (List Nat)) (s : CSR)
    (h : s.destroyed = true) : readableHandler inflate s = s := by
  unfold readableHandler
  rw [readLoopFuel_halt inflate _ _ _ (readStep_destroyed inflate s h)
    (by omega)]

end Handler

/-- C5: every frame handed to the underlying stream carries tag 0 (raw) or
tag 1 (deflated); its wire image is exactly the 1-byte tag, then the 4-byte
big-endian unsigned encoding of the payload's byte count, then the payload;
and on the inbound side a tag-1 payload is inflated before delivery while a
tag-0 payload is passed through unchanged. -/
theorem c5_frame_format (deflate : List Nat → List Nat)
    (inflate : List Nat → Except Nat (List Nat))
    (s : CompressedSocket.CSW) (chunk : List Nat) (unc : Bool)
    (p w : List Nat) (dl : List (List Nat))
    (hok : inflate p = .ok w)
    (hpos : 0 < p.length) (hlt : p.length < 4294967296) :
    (∀ f ∈ (CompressedSocket.writeBuffer deflate s chunk unc).out,
      f ∈ s.out ∨ f.tag = 0 ∨ f.tag = 1) ∧
    (∀ f : CompressedSocket.Frame,
      CompressedSocket.frameBytes f =
        f.tag :: u32be f.payload.length ++ f.payload ∧
      (u32be f.payload.length).length = 4 ∧
      (f.payload.length < 4294967296 →
        readU32BE (u32be f.payload.length) = f.payload.length)) ∧
    CompressedSocket.readableHandler inflate
        ⟨CompressedSocket.frameBytes ⟨1, p⟩, none, dl, false, none⟩ =
      ⟨[], none, dl ++ [w], false, none⟩ ∧
    CompressedSocket.readableHandler inflate
        ⟨CompressedSocket.frameBytes ⟨0, p⟩, none, dl, false, none⟩ =
      ⟨[], none, dl ++ [p], false, none⟩ := by
  have hfb : ∀ t : Nat, CompressedSocket.frameBytes ⟨t, p⟩ =
      (t :: u32be p.length) ++ (p ++ []) := by
    intro t
    unfold CompressedSocket.frameBytes
    simp
  refine ⟨writeBuffer_tags deflate s chunk unc, ?_, ?_, ?_⟩
  · intro f
    exact ⟨rfl, u32be_length f.payload.length,
      fun h => readU32BE_u32be f.payload.length h⟩
  · rw [hfb 1]
    exact readableHandler_one_frame_deflated inflate p w dl hok hpos hlt
  · rw [hfb 0]
    exact readableHandler_one_frame_raw inflate 0 p dl (by decide) hpos hlt

/-- C5 witness: the frame layout and both inbound deliveries at a concrete
deflated and raw frame with payload `[7]`. -/
theorem c5_frame_format_witness :
    CompressedSocket.readableHandler (fun _ => Except.ok [9])
        ⟨CompressedSocket.frameBytes ⟨1, [7]⟩, none, [], false, none⟩ =
      ⟨[], none, [[9]], false, none⟩ ∧
    CompressedSocket.readableHandler (fun _ => Except.ok [9])
        ⟨CompressedSocket.frameBytes ⟨0, [7]⟩, none, [], false, none⟩ =
      ⟨[], none, [[7]], false, none⟩ :=
  ⟨(c5_frame_format (fun l => l) (fun _ => Except.ok [9])
      CompressedSocket.cswInit [] false [7] [9] [] rfl (by decide)
      (by decide)).2.2.1,
   (c5_frame_format (fun l => l) (fun _ => Except.ok [9])
      CompressedSocket.cswInit [] false [7] [9] [] rfl (by decide)
      (by decide)).2.2.2⟩

/-- C6: when the 5 header bytes of a frame are read but fewer than `length`
payload bytes are buffered, the consumed header is retained in
`waitReadBlock` (not dropped) and nothing is delivered; the next readable
notification resumes from the retained header without re-reading it, and
once the payload is complete exactly `length` payload bytes are consumed
and the frame is delivered (inflated when its tag is 1). -/
theorem c6_partial_frame_resumption
    (inflate : List Nat → Except Nat (List Nat)) (t : Nat)
    (p1 p2 : List Nat) (dl : List (List Nat)) (w : List Nat)
    (hp2 : p2 ≠ []) (hlt : (p1 ++ p2).length < 4294967296)
    (hok : t = 1 → inflate (p1 ++ p2) = .ok w) :
    CompressedSocket.readableHandler inflate
        ⟨(t :: u32be (p1 ++ p2).length) ++ p1, none, dl, false, none⟩ =
      ⟨p1, some (t :: u32be (p1 ++ p2).length), dl, false, none⟩ ∧
    CompressedSocket.readableHandler inflate
        ⟨p1 ++ p2, some (t :: u32be (p1 ++ p2).length), dl, false, none⟩ =
      ⟨[], none, dl ++ [if t = 1 then w else p1 ++ p2], false, none⟩ := by
  have hp2len : 0 < p2.length := List.length_pos.mpr hp2
  have hpos : 0 < (p1 ++ p2).length := by
    rw [List.length_append]
    omega
  constructor
  · unfold CompressedSocket.readableHandler
    exact readLoopFuel_halt inflate _ _ _
      (readStep_wait inflate t (p1 ++ p2).length p1 dl
        (by rw [List.length_append]; omega) hlt) (by omega)
  · unfold CompressedSocket.readableHandler
    have h1 := readStep_resume inflate t (p1 ++ p2) [] dl hpos hlt
    rw [List.append_nil] at h1
    by_cases ht : t = 1
    · rw [if_pos ht, hok ht] at h1
      rw [readLoopFuel_more inflate _ _ _ h1 (by omega)]
      rw [readLoopFuel_halt inflate _ _ _
        (readStep_no_header inflate ⟨[], none, dl ++ [w], false, none⟩ rfl
          rfl (by simp)) (by simp; omega)]
      rw [if_pos ht]
    · rw [if_neg ht] at h1
      rw [readLoopFuel_more inflate _ _ _ h1 (by omega)]
      rw [readLoopFuel_halt inflate _ _ _
        (readStep_no_header inflate
          ⟨[], none, dl ++ [p1 ++ p2], false, none⟩ rfl
          rfl (by simp)) (by simp; omega)]
      rw [if_neg ht]

/-- C6 witness: a raw frame with a 2-byte payload split across two readable
notifications, one payload byte in each. -/
theorem c6_partial_frame_resumption_witness :
    CompressedSocket.readableHandler (fun _ => Except.ok [])
        ⟨(0 :: u32be ([7] ++ [8] : List Nat).length) ++ [7], none, [],
          false, none⟩ =
      ⟨[7], some (0 :: u32be ([7] ++ [8] : List Nat).length), [], false,
        none⟩ ∧
    CompressedSocket.readableHandler (fun _ => Except.ok [])
        ⟨[7] ++ [8], some (0 :: u32be ([7] ++ [8] : List Nat).length), [],
          false, none⟩ =
      ⟨[], none, [if (0 : Nat) = 1 then [] else [7] ++ [8]], false,
        none⟩ :=
  c6_partial_frame_resumption (fun _ => Except.ok []) 0 [7] [8] [] []
    (by decide) (by decide) (fun h => absurd h (by decide))

/-- C7 counterexample: a tag-1 frame whose payload fails to inflate
destroys the framer (`cr.destroy(err)` acts on the `CompressedSocket`
itself), but the owning Connection is NOT destroyed: its socket stays
alive, no error is latched in `_err`, and a subsequent `readBuffer`
attempt engages the transport (and then waits on the dead framer) instead
of rejecting. -/
theorem c7_connection_not_destroyed :
    (ConnSys.onReadable (fun _ => Except.error 3)
        ⟨NetConn.ncInit,
          ⟨[1, 0, 0, 0, 1, 42], none, [], false, none⟩⟩).framer.destroyed
      = true ∧
    (ConnSys.onReadable (fun _ => Except.error 3)
        ⟨NetConn.ncInit,
          ⟨[1, 0, 0, 0, 1, 42], none, [], false, none⟩⟩).framer.derr
      = some 3 ∧
    (ConnSys.onReadable (fun _ => Except.error 3)
        ⟨NetConn.ncInit,
          ⟨[1, 0, 0, 0, 1, 42], none, [], false, none⟩⟩).nc.err = none ∧
    (ConnSys.onReadable (fun _ => Except.error 3)
        ⟨NetConn.ncInit,
          ⟨[1, 0, 0, 0, 1, 42], none, [], false, none⟩⟩).nc.destroyed
      = false ∧
    NetConn.readBufferAttempt
        (ConnSys.onReadable (fun _ => Except.error 3)
          ⟨NetConn.ncInit,
            ⟨[1, 0, 0, 0, 1, 42], none, [], false, none⟩⟩).nc
      = .engage ∧
    NetConn.Attempt.engage ≠ .rejectErr 3 := by
  decide

/-- C7 (amended): an inbound tag-1 frame whose payload fails to inflate is
fatal to the FRAMER: the framer destroys itself recording the
decompression error (which rejects the in-flight read waiting on it), it
delivers nothing for the bad frame, and once destroyed it processes no
further data; the owning Connection's own state is untouched — its socket
is not destroyed and no error is latched. -/
theorem c7_inflate_error_fatal_to_framer
    (inflate : List Nat → Except Nat (List Nat)) (p : List Nat) (e : Nat)
    (dl : List (List Nat)) (sys : ConnSys) (fr : CompressedSocket.CSR)
    (herr : inflate p = .error e) (hpos : 0 < p.length)
    (hlt : p.length < 4294967296) (hdes : fr.destroyed = true) :
    CompressedSocket.readableHandler inflate
        ⟨CompressedSocket.frameBytes ⟨1, p⟩, none, dl, false, none⟩ =
      ⟨[], none, dl, true, some e⟩ ∧
    (ConnSys.onReadable inflate sys).nc = sys.nc ∧
    CompressedSocket.readableHandler inflate fr = fr := by
  refine ⟨?_, rfl, readableHandler_destroyed inflate fr hdes⟩
  rw [show CompressedSocket.frameBytes ⟨1, p⟩ =
      ((1 : Nat) :: u32be p.length) ++ (p ++ []) from by
    unfold CompressedSocket.frameBytes
    simp]
  exact readableHandler_inflate_error inflate p e dl herr hpos hlt

/-- C7 amended-claim witness: a concrete failing inflate on payload `[42]`
destroys the framer and leaves the connection untouched. -/
theorem c7_inflate_error_fatal_to_framer_witness :
    CompressedSocket.readableHandler (fun _ => Except.error 3)
        ⟨CompressedSocket.frameBytes ⟨1, [42]⟩, none, [], false, none⟩ =
      ⟨[], none, [], true, some 3⟩ ∧
    CompressedSocket.readableHandler (fun _ => Except.error 3)
        ⟨[], none, [], true, some 3⟩ = ⟨[], none, [], true, some 3⟩ :=
  ⟨(c7_inflate_error_fatal_to_framer (fun _ => Except.error 3) [42] 3 []
      ⟨NetConn.ncInit, ⟨[], none, [], true, some 3⟩⟩
      ⟨[], none, [], true, some 3⟩ rfl (by decide) (by decide) rfl).1,
   (c7_inflate_error_fatal_to_framer (fun _ => Except.error 3) [42] 3 []
      ⟨NetConn.ncInit, ⟨[], none, [], true, some 3⟩⟩
      ⟨[], none, [], true, some 3⟩ rfl (by decide) (by decide) rfl).2.2⟩

end NodeTcp
